import Mathlib

/-!
Verification development for the protojam repository: a shallow embedding of
the pull-request synthesis pipeline (Context Analyzer, Plan Synthesizer,
Change-Set Materializer, Version-Control Publisher) into Lean 4, together
with theorems settling the frozen claims about it.

Strings manipulated character by character in the source are modelled as
`List Char`; JS string methods used by the source (`split`, `startsWith`,
`includes`, `endsWith`, `toLowerCase`, `replace` with the concrete regexes
that appear in the code) are embedded as executable list functions.  The
JS runtime restriction to ASCII case conversion is inherited from
`Char.toLower` and noted where relevant.
-/

namespace Protojam

/-! ## JS string primitives on character lists -/

/-- JS `s.split(sep)` for a one-character separator: `''.split(sep)` is
`['']`, a trailing separator yields a trailing empty piece. -/
def splitOnChar (sep : Char) : List Char → List (List Char)
  | [] => [[]]
  | c :: cs =>
    if c = sep then [] :: splitOnChar sep cs
    else
      match splitOnChar sep cs with
      | [] => [[c]]
      | l :: ls => (c :: l) :: ls

/-- JS `content.split('\n')`. -/
def splitNl : List Char → List (List Char) := splitOnChar '\n'

/-- JS `String.prototype.startsWith` on character lists. -/
def jsStartsWith : List Char → List Char → Bool
  | _, [] => true
  | [], _ :: _ => false
  | c :: cs, d :: ds => c = d && jsStartsWith cs ds

/-- JS `String.prototype.includes` (substring occurrence) on character
lists. -/
def containsSub : List Char → List Char → Bool
  | [], sub => sub.isEmpty
  | c :: cs, sub => jsStartsWith (c :: cs) sub || containsSub cs sub

/-- JS `s.includes(sub)` on Lean strings. -/
def strIncludes (s sub : String) : Bool := containsSub s.toList sub.toList

/-- JS `s.startsWith(pre)` on Lean strings. -/
def strStarts (s pre : String) : Bool := jsStartsWith s.toList pre.toList

/-- JS `s.endsWith(suf)` on Lean strings. -/
def strEnds (s suf : String) : Bool :=
  jsStartsWith s.toList.reverse suf.toList.reverse

/-- JS `s.toLowerCase()`, restricted to the ASCII range exercised by the
source (`Char.toLower` lowercases exactly ASCII `A`-`Z`). -/
def lowerStr (s : String) : String := String.mk (s.toList.map Char.toLower)

/-! ## Change-Set Materializer: countChanges
`countChanges` appears identically in `src/src/utils/llm.ts` lines 66-74 and
in the second source revision: split the content on newlines, count lines
starting with `+` as additions and lines starting with `-` as deletions. -/

structure ChangeCounts where
  additions : Nat
  deletions : Nat
deriving DecidableEq, Repr

def countChanges (content : List Char) : ChangeCounts :=
  let lines := splitNl content
  { additions := (lines.filter (fun line => jsStartsWith line ['+'])).length
    deletions := (lines.filter (fun line => jsStartsWith line ['-'])).length }

/-! ## Version-Control Publisher: branch-name generation
`GitHubService.generateBranchName` (lines 89-98 of the Publisher source):
slugify the plan route (default `'prototype'` when the route is falsy),
append a transformed `new Date().toISOString()` timestamp.  The wall clock
is made an explicit argument. -/

/-- Characters the slug regex `[^a-z0-9-_]` keeps unchanged. -/
def isSlugChar (c : Char) : Bool := c.isLower || c.isDigit || c == '-' || c == '_'

/-- One character of `.toLowerCase().replace(/[^a-z0-9-_]/g, '-')`. -/
def slugChar (c : Char) : Char :=
  let l := c.toLower
  if isSlugChar l then l else '-'

def slugify (r : List Char) : List Char := r.map slugChar

/-- JS `replace(/[:.]/g, '-')` applied to one character. -/
def dashColonDot (c : Char) : Char := if c = ':' ∨ c = '.' then '-' else c

/-- JS `replace('Z', '')`: removes only the first occurrence of `Z`. -/
def removeFirstZ : List Char → List Char
  | [] => []
  | c :: cs => if c = 'Z' then cs else c :: removeFirstZ cs

/-- Embeds `toISOString().replace(/[:.]/g, '-').replace('Z', '')`. -/
def tsTransform (t : List Char) : List Char := removeFirstZ (t.map dashColonDot)

/-- Embeds `plan.pullRequest.route || 'prototype'`: the empty route string is falsy
and is replaced by the literal `prototype`. -/
def routeBase (route : List Char) : List Char :=
  if route = [] then "prototype".toList else route

/-- Embeds `generateBranchName`, with the ISO timestamp `now` explicit. -/
def generateBranchName (route : List Char) (now : List Char) : List Char :=
  "protojam-".toList ++ (slugify (routeBase route) ++ ('-' :: tsTransform now))

/-- The 24 characters of a `Date.toISOString()` value, e.g.
`2026-01-02T03:04:05.678Z`, with the 17 digit positions abstract. -/
structure IsoParts where
  y1 : Char
  y2 : Char
  y3 : Char
  y4 : Char
  mo1 : Char
  mo2 : Char
  d1 : Char
  d2 : Char
  h1 : Char
  h2 : Char
  mi1 : Char
  mi2 : Char
  s1 : Char
  s2 : Char
  f1 : Char
  f2 : Char
  f3 : Char

def IsoParts.render (p : IsoParts) : List Char :=
  [p.y1, p.y2, p.y3, p.y4, '-', p.mo1, p.mo2, '-', p.d1, p.d2, 'T',
   p.h1, p.h2, ':', p.mi1, p.mi2, ':', p.s1, p.s2, '.', p.f1, p.f2, p.f3, 'Z']

/-- Value of `tsTransform` on a rendered timestamp, written out. -/
def IsoParts.stripped (p : IsoParts) : List Char :=
  [p.y1, p.y2, p.y3, p.y4, '-', p.mo1, p.mo2, '-', p.d1, p.d2, 'T',
   p.h1, p.h2, '-', p.mi1, p.mi2, '-', p.s1, p.s2, '-', p.f1, p.f2, p.f3]

/-- All 17 variable positions hold decimal digits, as `toISOString`
guarantees. -/
def IsoParts.digitsOk (p : IsoParts) : Prop :=
  p.y1.isDigit ∧ p.y2.isDigit ∧ p.y3.isDigit ∧ p.y4.isDigit ∧
  p.mo1.isDigit ∧ p.mo2.isDigit ∧ p.d1.isDigit ∧ p.d2.isDigit ∧
  p.h1.isDigit ∧ p.h2.isDigit ∧ p.mi1.isDigit ∧ p.mi2.isDigit ∧
  p.s1.isDigit ∧ p.s2.isDigit ∧ p.f1.isDigit ∧ p.f2.isDigit ∧ p.f3.isDigit

/-- A concrete timestamp, `2026-01-02T03:04:05.678Z`. -/
def isoExample : IsoParts :=
  ⟨'2', '0', '2', '6', '0', '1', '0', '2', '0', '3', '0', '4', '0', '5', '6', '7', '8'⟩

/-! ## Context Analyzer: manifest model
A JSON value as produced by `JSON.parse`.  Numbers are integral here:
manifest values only ever feed JS truthiness tests, for which `0` is the
sole falsy number exercised. -/

inductive JsonVal where
  | jnull
  | jbool (b : Bool)
  | jnum (n : Int)
  | jstr (s : String)
  | jarr (elems : List JsonVal)
  | jobj (fields : List (String × JsonVal))

/-- JS truthiness of a parsed JSON value. -/
def truthy : JsonVal → Bool
  | .jnull => false
  | .jbool b => b
  | .jnum n => n != 0
  | .jstr s => s != ""
  | .jarr _ => true
  | .jobj _ => true

/-- The raw text of a repository file, abstracted by the outcome of
`JSON.parse` on it: `json v` when the text parses to `v`, `malformed raw`
when `JSON.parse` would throw (which includes the empty string). -/
inductive Content where
  | malformed (raw : String)
  | json (v : JsonVal)

/-- JS string truthiness of the raw file text; a parseable JSON text is
never empty, hence always truthy. -/
def Content.truthy : Content → Bool
  | .malformed raw => raw != ""
  | .json _ => true

inductive FType where
  | file
  | directory
deriving DecidableEq, BEq, Repr

/-- One entry of the target repository snapshot
(`Array<{ path; type; content? }>` in the source; the `type` field is
`ftype` here because `type` is a Lean keyword). -/
structure SnapItem where
  path : String
  ftype : FType
  content : Option Content

/-- First-match association-list lookup (JS object property read). -/
def lookupAssoc {α : Type} : List (String × α) → String → Option α
  | [], _ => none
  | (k, v) :: rest, key => if k = key then some v else lookupAssoc rest key

/-- Embeds `parsed.dependencies || {}`: the named field when the parsed value is an
object holding an object there, else empty.  A falsy field degrades to the
empty record exactly as in JS; a truthy non-object field (which JS would
expose oddly through `Object.keys`) is also modelled as empty — no theorem
below exercises that corner. -/
def fieldObj (v : JsonVal) (name : String) : List (String × JsonVal) :=
  match v with
  | .jobj fields =>
    match lookupAssoc fields name with
    | some (.jobj fs) => fs
    | _ => []
  | _ => []

/-- Embeds `parsePackageJson` from `src/src/utils/llm.ts` lines 102-115: a
`JSON.parse` failure is caught and degrades to empty maps, otherwise the
`dependencies` and `devDependencies` fields are extracted (defaulted). -/
def parsePackageJson (c : Content) :
    List (String × JsonVal) × List (String × JsonVal) :=
  match c with
  | .malformed _ => ([], [])
  | .json v => (fieldObj v "dependencies", fieldObj v "devDependencies")

/-- Lines 164-170 of `llm.ts`: locate the root `package.json` file entry and
parse it when its content is present and truthy. -/
def snapshotPackageDeps (snap : List SnapItem) :
    List (String × JsonVal) × List (String × JsonVal) :=
  match snap.find? (fun f => f.path == "package.json" && f.ftype == FType.file) with
  | some item =>
    match item.content with
    | some c => if c.truthy then parsePackageJson c else ([], [])
    | none => ([], [])
  | none => ([], [])

def hasKey {α : Type} (l : List (String × α)) (k : String) : Bool :=
  l.any (fun e => e.1 == k)

/-- JS object spread of `a` then `b`: the keys of `a` in order with values
overridden by `b` where shared, followed by the keys only in `b`. -/
def spreadMerge {α : Type} (a b : List (String × α)) : List (String × α) :=
  a.map (fun e => (e.1, (lookupAssoc b e.1).getD e.2)) ++
    b.filter (fun e => !hasKey a e.1)

/-- Embeds `allDeps` of `analyzeProjectStructure` (llm.ts line 172): spread of
`dependencies` then `devDependencies` — the later spread wins on shared
keys. -/
def computeAllDeps (snap : List SnapItem) : List (String × JsonVal) :=
  let deps := snapshotPackageDeps snap
  spreadMerge deps.1 deps.2

/-! ## Context Analyzer: directory structure
`buildDirectoryStructure` (llm.ts lines 34-64) builds a nested object keyed
by path segment.  Keys are character lists (the segments of
`item.path.split('/')`). -/

inductive DStruct where
  | mk (entries : List (List Char × FType × Option DStruct))

def DStruct.entries : DStruct → List (List Char × FType × Option DStruct)
  | .mk es => es

/-- JS object property assignment: replace the existing key in place, else
append. -/
def setEntry : List (List Char × FType × Option DStruct) → List Char →
    FType × Option DStruct → List (List Char × FType × Option DStruct)
  | [], k, v => [(k, v)]
  | (k', v') :: rest, k, v =>
    if k' = k then (k, v) :: rest else (k', v') :: setEntry rest k v

/-- One `items.forEach` iteration of `buildDirectoryStructure`.  The result
is `none` exactly when the JS code would throw: descending through a node
recorded as a file leaves `current` equal to `undefined` (its `children` is
`undefined`), and the next property access raises a `TypeError`. -/
def insertParts : List (List Char × FType × Option DStruct) → List (List Char) →
    FType → Option (List (List Char × FType × Option DStruct))
  | es, [], _ => some es
  | es, [p], t =>
    some (setEntry es p (t, if t = FType.directory then some (.mk []) else none))
  | es, p :: q :: rest, t =>
    match es.find? (fun e => e.1 == p) with
    | none =>
      match insertParts [] (q :: rest) t with
      | none => none
      | some sub => some (setEntry es p (FType.directory, some (.mk sub)))
    | some (_, ty, children) =>
      match children with
      | none => none
      | some sub =>
        match insertParts sub.entries (q :: rest) t with
        | none => none
        | some sub' => some (setEntry es p (ty, some (.mk sub')))

def pathParts (p : String) : List (List Char) := splitOnChar '/' p.toList

/-- Embeds `buildDirectoryStructure`: fold every snapshot item into the nested
structure; `none` models the `TypeError` described at `insertParts`. -/
def buildDirectoryStructure (items : List SnapItem) : Option DStruct :=
  items.foldl
    (fun acc it =>
      match acc with
      | none => none
      | some ds => (insertParts ds.entries (pathParts it.path) it.ftype).map .mk)
    (some (.mk []))

/-! ## Context Analyzer: project classification (llm.ts lines 157-262) -/

inductive Framework where
  | nextjs
  | nuxt
  | angular
  | vue
  | svelte
  | react
  | unknown
deriving DecidableEq, Repr

inductive Styling where
  | tailwind
  | styledComponents
  | emotion
  | cssModules
  | sass
  | unknown
deriving DecidableEq, Repr

inductive StateMgmt where
  | redux
  | mobx
  | recoil
  | zustand
  | jotai
  | unknown
deriving DecidableEq, Repr

/-- Embeds `if (allDeps[k]) ...`: a key counts only when present with a truthy
version value. -/
def truthyLookup (deps : List (String × JsonVal)) (k : String) : Bool :=
  match lookupAssoc deps k with
  | some v => truthy v
  | none => false

def potentialFrontendDirs : List String := ["src", "app", "client", "frontend", "web"]

/-- The analysis record; the source's nested `projectType.meta` object is
flattened, and its `structure` field is `tree` (`structure` is a Lean
keyword). -/
structure ProjectStructureAnalysis where
  frontendDirectory : Option String
  framework : Framework
  isTypescript : Bool
  styling : Styling
  stateManagement : StateMgmt
  dirComponents : Option String
  dirHooks : Option String
  dirUtils : Option String
  dirTypes : Option String
  dirPages : Option String
  dirFeatures : Option String
  tree : DStruct

/-- Everything `analyzeProjectStructure` computes besides the directory
structure (all of it total). -/
def analysisBody (snap : List SnapItem) (ds : DStruct) : ProjectStructureAnalysis :=
  let deps := snapshotPackageDeps snap
  let allDeps := spreadMerge deps.1 deps.2
  let dirs := snap.filter (fun i => i.ftype == FType.directory)
  let frontendDir :=
    (dirs.find? (fun d => potentialFrontendDirs.contains (lowerStr d.path))).bind
      (fun d => if d.path = "" then none else some d.path)
  let framework :=
    if truthyLookup allDeps "next" || truthyLookup allDeps "next.js" then Framework.nextjs
    else if truthyLookup allDeps "nuxt" then Framework.nuxt
    else if truthyLookup allDeps "@angular/core" then Framework.angular
    else if truthyLookup allDeps "vue" then Framework.vue
    else if truthyLookup allDeps "svelte" then Framework.svelte
    else if truthyLookup allDeps "react" then Framework.react
    else Framework.unknown
  let isTs :=
    truthyLookup allDeps "typescript" ||
      snap.any (fun f => strEnds f.path ".ts" || strEnds f.path ".tsx")
  let styling :=
    if truthyLookup allDeps "tailwindcss" then Styling.tailwind
    else if truthyLookup allDeps "styled-components" then Styling.styledComponents
    else if truthyLookup allDeps "@emotion/react" then Styling.emotion
    else if snap.any (fun f => strEnds f.path ".module.css") then Styling.cssModules
    else if snap.any (fun f => strEnds f.path ".scss") then Styling.sass
    else Styling.unknown
  let st :=
    if truthyLookup allDeps "redux" || truthyLookup allDeps "@reduxjs/toolkit" then StateMgmt.redux
    else if truthyLookup allDeps "mobx" then StateMgmt.mobx
    else if truthyLookup allDeps "recoil" then StateMgmt.recoil
    else if truthyLookup allDeps "zustand" then StateMgmt.zustand
    else if truthyLookup allDeps "jotai" then StateMgmt.jotai
    else StateMgmt.unknown
  let dirPaths := dirs.map (fun i => i.path)
  { frontendDirectory := frontendDir
    framework := framework
    isTypescript := isTs
    styling := styling
    stateManagement := st
    dirComponents := dirPaths.find? (fun d => strIncludes d "components" || strIncludes d "ui")
    dirHooks := dirPaths.find? (fun d => strIncludes d "hooks")
    dirUtils := dirPaths.find? (fun d =>
      strIncludes d "utils" || strIncludes d "lib" || strIncludes d "helpers")
    dirTypes := dirPaths.find? (fun d => strIncludes d "types" || strIncludes d "interfaces")
    dirPages := dirPaths.find? (fun d => strIncludes d "pages" || strIncludes d "routes")
    dirFeatures := dirPaths.find? (fun d => strIncludes d "features" || strIncludes d "modules")
    tree := ds }

/-- Embeds `analyzeProjectStructure` (llm.ts lines 157-262).  The result is `none`
exactly when `buildDirectoryStructure` throws; everything else degrades to
`none`/`unknown`/empty rather than failing. -/
def analyzeProjectStructure (snap : List SnapItem) : Option ProjectStructureAnalysis :=
  (buildDirectoryStructure snap).map (analysisBody snap)

/-! ## Context Analyzer: dependency extraction
`extractDependencies` (llm.ts lines 76-100) scans for the two regexes
matching `import ... from <quoted>` and `require(<quoted>)`.  The regexes
are embedded as deterministic matchers: each alternation branch and each
greedy class below is disjoint from what follows it, so no backtracking is
needed, and a matcher anchored at each position reproduces `exec` with the
`g` flag (match from the last match end, else slide one character). -/

/-- JS `\s` restricted to the ASCII whitespace the source encounters. -/
def isSpaceJs (c : Char) : Bool :=
  c == ' ' || c == '\t' || c == '\n' || c == '\r' || c == '\x0b' || c == '\x0c'

/-- JS `\w`: ASCII letters, digits, underscore. -/
def isWordChar (c : Char) : Bool := c.isAlpha || c.isDigit || c == '_'

/-- The regex character class matching either quote in `['"]`. -/
def isQuote (c : Char) : Bool := c == '\'' || c == '"'

/-- Consume one-or-more characters satisfying `p` (greedy `+`), returning
the matched run and the rest. -/
def takeWhile1 (p : Char → Bool) (cs : List Char) : Option (List Char × List Char) :=
  let taken := cs.takeWhile p
  if taken.isEmpty then none else some (taken, cs.dropWhile p)

/-- Consume the literal `lit` from the head of the input. -/
def dropLit : List Char → List Char → Option (List Char)
  | cs, [] => some cs
  | [], _ :: _ => none
  | c :: cs, d :: ds => if c = d then dropLit cs ds else none

/-- Match the quoted capture `['"]([^'"]+)['"]` at the head of the input,
returning the captured module specifier and the rest. -/
def quotedCapture (cs : List Char) : Option (String × List Char) :=
  match cs with
  | q :: r =>
    if isQuote q then
      match takeWhile1 (fun c => !isQuote c) r with
      | some (body, r') =>
        match r' with
        | q2 :: rest => if isQuote q2 then some (String.mk body, rest) else none
        | [] => none
      | none => none
    else none
  | [] => none

/-- Anchored attempt of the import regex: the literal `import`, whitespace,
either a braced specifier-group or a bare word, whitespace, the literal
`from`, whitespace, then the quoted capture. -/
def tryImportAt (cs : List Char) : Option (String × List Char) := do
  let r1 ← dropLit cs "import".toList
  let (_, r2) ← takeWhile1 isSpaceJs r1
  let r3 ←
    match r2 with
    | '{' :: r => do
      let (_, r') ← takeWhile1 (fun c => !(c == '}')) r
      dropLit r' ['}']
    | _ => (takeWhile1 isWordChar r2).map Prod.snd
  let (_, r4) ← takeWhile1 isSpaceJs r3
  let r5 ← dropLit r4 "from".toList
  let (_, r6) ← takeWhile1 isSpaceJs r5
  quotedCapture r6

/-- Anchored attempt of the require regex: the literal `require(`, the
quoted capture, then `)`. -/
def tryRequireAt (cs : List Char) : Option (String × List Char) := do
  let r1 ← dropLit cs "require(".toList
  let (dep, r2) ← quotedCapture r1
  let r3 ← dropLit r2 [')']
  pure (dep, r3)

/-- Repeated `exec`: collect every non-overlapping match left to right.  The
fuel only bounds the recursion; a successful match always consumes at least
the anchoring literal, so fuel `length + 1` is never exhausted. -/
def scanWith (tryAt : List Char → Option (String × List Char)) :
    Nat → List Char → List String
  | 0, _ => []
  | _ + 1, [] => []
  | n + 1, c :: cs =>
    match tryAt (c :: cs) with
    | some (dep, rest) => dep :: scanWith tryAt n rest
    | none => scanWith tryAt n cs

/-- Embeds JS `[...new Set(xs)]`: deduplicate keeping first occurrences. -/
def dedupFirstAux : List String → List String → List String
  | _, [] => []
  | seen, x :: xs =>
    if seen.contains x then dedupFirstAux seen xs
    else x :: dedupFirstAux (x :: seen) xs

def dedupFirst (xs : List String) : List String := dedupFirstAux [] xs

/-- Embeds `extractDependencies` from `src/src/utils/llm.ts`: import matches then
require matches, specifiers starting with `.` or `/` dropped, first-seen
dedup.  (The source filters each match as it is pushed and dedups at the
end; filtering is pointwise, so filtering before the dedup is the same
function.) -/
def extractDependencies (content : String) : List String :=
  let cs := content.toList
  let imports := scanWith tryImportAt (cs.length + 1) cs
  let requires := scanWith tryRequireAt (cs.length + 1) cs
  dedupFirst ((imports ++ requires).filter
    (fun d => !(strStarts d "." || strStarts d "/")))

/-! ## Plan Synthesizer: dependency-substitution findings
(llm.ts lines 276-319). -/

structure DependencyFinding where
  /-- source field name: `package` (a Lake keyword is avoided). -/
  pkg : String
  existingAlternative : Option String
deriving DecidableEq, Repr

/-- The fixed equivalence table declared inline in the filter closure. -/
def alternativesTable : List (String × List String) :=
  [("axios", ["fetch", "node-fetch", "got", "ky", "superagent"]),
   ("moment", ["date-fns", "dayjs", "luxon"]),
   ("lodash", ["ramda", "underscore"]),
   ("next-auth", ["@auth/core", "firebase-auth"]),
   ("styled-components", ["@emotion/styled", "@stitches/react", "tailwindcss"]),
   ("redux", ["zustand", "jotai", "recoil", "@tanstack/react-query"])]

/-- Embeds `dep.split('/')[0]`. -/
def basePkgOf (dep : String) : String :=
  String.mk ((splitOnChar '/' dep.toList).headD [])

/-- Embeds `alternatives[basePkg] ?? []` — an absent table row makes the
`?.includes(...) || false` test constantly false. -/
def altListFor (base : String) : List String :=
  (lookupAssoc alternativesTable base).getD []

/-- One element of the `dependencyAnalysis` map: filter the declared
dependency names down to those in the table row for the base package and
take the first, else null. -/
def findingFor (existingDependencies : List (String × JsonVal)) (dep : String) :
    DependencyFinding :=
  let alts := (existingDependencies.map Prod.fst).filter
    (fun existing => (altListFor (basePkgOf dep)).contains existing)
  { pkg := dep, existingAlternative := alts.head? }

/-- Lines 284-291 of `llm.ts`: the Plan Synthesizer parses only the prod
`dependencies` of the target manifest for the substitution analysis. -/
def planExistingDependencies (snap : List SnapItem) : List (String × JsonVal) :=
  match snap.find? (fun f => f.path == "package.json" && f.ftype == FType.file) with
  | some item =>
    match item.content with
    | some c => if c.truthy then (parsePackageJson c).1 else []
    | none => []
  | none => []

/-- Lines 276-278: per-file extraction, flattened (cross-file duplicates
are kept — only each file's own list is deduplicated). -/
def prototypeDependencies (protoFiles : List (String × String)) : List String :=
  (protoFiles.map (fun f => extractDependencies f.2)).flatten

/-- The `dependencyAnalysis` value of `generateIntegrationPlan`. -/
def dependencyAnalysis (protoFiles : List (String × String))
    (snap : List SnapItem) : List DependencyFinding :=
  (prototypeDependencies protoFiles).map (findingFor (planExistingDependencies snap))

/-- Modelled from the spec sentence, for comparison with `findingFor`: the
first entry of the equivalence table's list for the base package that is
also present among the declared dependency names. -/
def specExistingAlternative (existingDependencies : List (String × JsonVal))
    (dep : String) : Option String :=
  ((altListFor (basePkgOf dep)).filter
    (fun a => (existingDependencies.map Prod.fst).contains a)).head?

/-! ## Plan Synthesizer: response transform
(llm.ts lines 386-401): each file of the parsed LLM response is mapped to a
plan file, synthesizing `content` from `changes` when `content` is falsy. -/

/-- A file of the parsed LLM JSON response; absent fields are `none`. -/
structure RespFile where
  path : String
  content : Option String
  changes : Option (List String)
  originalPath : Option String
deriving DecidableEq, Repr

/-- A file of the produced `IntegrationPlan` value. -/
structure PlanFile where
  path : String
  content : String
  additions : Nat
  deletions : Nat
  changes : Option (List String)
  originalPath : Option String
deriving DecidableEq, Repr

/-- JS `changes.join('\n')`. -/
def joinNl (xs : List String) : String := String.intercalate "\n" xs

/-- One file of the transform: `content: file.content || file.changes.join('\n')`.
`none` models the `TypeError` raised when `content` is falsy (absent or the
empty string) and `changes` is absent — caught further out as the
plan-generation failure. -/
def transformFile (f : RespFile) : Option PlanFile :=
  let useContent : Option String :=
    match f.content with
    | some c => if c ≠ "" then some c else f.changes.map joinNl
    | none => f.changes.map joinNl
  match useContent with
  | none => none
  | some c =>
    some { path := f.path, content := c, additions := 0, deletions := 0,
           changes := f.changes, originalPath := f.originalPath }

/-- Embeds `response.files.map(...)`: any per-file throw aborts the whole map. -/
def transformFiles (files : List RespFile) : Option (List PlanFile) :=
  files.mapM transformFile

/-! ## Version-Control Publisher (`GitHubService`)
The host (octokit) is an oracle of responses; every embedded operation
returns its outcome together with the ordered trace of host API calls it
issued, so the claims about which calls run before a failure are
statements about the trace. -/

/-- An error thrown by the underlying host client: an HTTP-ish status (when
one exists) and a message. -/
structure ApiErr where
  status : Option Nat
  message : String
deriving DecidableEq, Repr

/-- The `GitHubError` wrapper class. -/
structure GHError where
  message : String
  status : Option Nat
  original : Option ApiErr
deriving DecidableEq, Repr

/-- A thrown JS value inside the Publisher: either an already-wrapped
`GitHubError` or a raw client error. -/
inductive Thrown where
  | gh (e : GHError)
  | api (e : ApiErr)
deriving DecidableEq, Repr

structure PRInfo where
  htmlUrl : String
  number : Nat
deriving DecidableEq, Repr

/-- One blob entry of the created tree (the source's `type` field is
`entryType`). -/
structure TreeEntry where
  path : String
  mode : String
  entryType : String
  content : String
deriving DecidableEq, Repr

inductive HostCall where
  | reposGet
  | getRef (ref : String)
  | getCommit (sha : String)
  | createTree (baseTree : String) (entries : List TreeEntry)
  | createCommit (message tree parent : String)
  | createRef (ref sha : String)
  | updateRef (ref sha : String) (force : Bool)
  | pullsCreate (title body head base : String)
deriving DecidableEq, Repr

/-- A call that mutates the target repository, as opposed to the read-only
repos-get / get-ref / get-commit calls. -/
def HostCall.isMutation : HostCall → Bool
  | .createTree _ _ => true
  | .createCommit _ _ _ => true
  | .createRef _ _ => true
  | .updateRef _ _ _ => true
  | .pullsCreate _ _ _ _ => true
  | _ => false

/-- The host oracle: the response each octokit operation would produce. -/
structure Host where
  reposGet : Except ApiErr Unit
  getRef : String → Except ApiErr String
  getCommit : String → Except ApiErr String
  createTree : String → List TreeEntry → Except ApiErr String
  createCommit : String → String → String → Except ApiErr String
  createRef : String → String → Except ApiErr Unit
  updateRef : String → String → Bool → Except ApiErr Unit
  pullsCreate : String → String → String → String → Except ApiErr PRInfo

/-- A file of `pullRequest.files` in the plan schema. -/
structure PlanFileEntry where
  path : String
  content : String
deriving DecidableEq, Repr

structure PullRequestPlanPart where
  title : String
  description : String
  files : List PlanFileEntry
  route : String
deriving DecidableEq, Repr

/-- The `IntegrationPlan` shape the Publisher consumes (the schema of the
second `llm.ts` revision, which the Publisher imports). -/
structure IntegrationPlan where
  targetDirectory : String
  integrationSteps : List String
  pullRequest : PullRequestPlanPart
deriving DecidableEq, Repr

structure PullRequestResult where
  url : String
  number : Nat
  branch : String
deriving DecidableEq, Repr

/-- Embeds `validateRepository`: a read-only `repos.get`, errors wrapped. -/
def validateRepository (h : Host) (owner repo : String) :
    Except Thrown Unit × List HostCall :=
  match h.reposGet with
  | .ok _ => (.ok (), [.reposGet])
  | .error e =>
    if e.status = some 404 then
      (.error (.gh { message := "Repository " ++ owner ++ "/" ++ repo ++
                       " not found or inaccessible",
                     status := some 404, original := some e }), [.reposGet])
    else
      (.error (.gh { message := "Failed to validate repository access",
                     status := e.status, original := some e }), [.reposGet])

/-- The error mapping shared by both reads of `getBaseBranch`.  (The source
message wraps the branch name in single quotes; the quotes are elided
here.) -/
def baseBranchErr (branch : String) (e : ApiErr) : GHError :=
  if e.status = some 404 then
    { message := "Branch " ++ branch ++ " not found. Please verify the base branch name.",
      status := some 404, original := some e }
  else
    { message := "Failed to get base branch information",
      status := e.status, original := some e }

/-- Embeds `getBaseBranch`: resolve the head commit SHA of `heads/<branch>` and
that commit's tree SHA. -/
def getBaseBranch (h : Host) (branch : String) :
    Except Thrown (String × String) × List HostCall :=
  match h.getRef ("heads/" ++ branch) with
  | .error e => (.error (.gh (baseBranchErr branch e)), [.getRef ("heads/" ++ branch)])
  | .ok sha =>
    match h.getCommit sha with
    | .error e =>
      (.error (.gh (baseBranchErr branch e)),
       [.getRef ("heads/" ++ branch), .getCommit sha])
    | .ok treeSha =>
      (.ok (sha, treeSha), [.getRef ("heads/" ++ branch), .getCommit sha])

/-- The tree entries surviving the `file.path && file.content` truthiness
filter, mapped to blob entries. -/
def treeEntriesOf (files : List PlanFileEntry) : List TreeEntry :=
  (files.filter (fun f => f.path != "" && f.content != "")).map
    (fun f => { path := f.path, mode := "100644", entryType := "blob",
                content := f.content })

/-- The empty-change-set error message raised inside `createGitTree`. -/
def emptyChangeSetMsg : String :=
  "No valid files to commit. Each file must have both path and content."

/-- Embeds `createGitTree`: filter the plan files, fail before any host call when
nothing survives, else create the layered tree (client errors wrapped;
an already-wrapped `GitHubError` is rethrown unchanged by the catch). -/
def createGitTree (h : Host) (baseTreeSha : String) (files : List PlanFileEntry) :
    Except Thrown String × List HostCall :=
  let entries := treeEntriesOf files
  if entries.isEmpty then
    (.error (.gh { message := emptyChangeSetMsg, status := some 422,
                   original := none }), [])
  else
    match h.createTree baseTreeSha entries with
    | .ok sha => (.ok sha, [.createTree baseTreeSha entries])
    | .error e =>
      (.error (.gh { message := "Failed to create Git tree: " ++
                       (if e.message = "" then "Unknown error" else e.message),
                     status := e.status, original := some e }),
       [.createTree baseTreeSha entries])

/-- Embeds `createCommit`: one commit on the new tree with the base head as sole
parent. -/
def createCommit (h : Host) (message treeSha parentSha : String) :
    Except Thrown String × List HostCall :=
  match h.createCommit message treeSha parentSha with
  | .ok sha => (.ok sha, [.createCommit message treeSha parentSha])
  | .error e =>
    (.error (.gh { message := "Failed to create commit", status := e.status,
                   original := some e }),
     [.createCommit message treeSha parentSha])

/-- Embeds `createOrUpdateBranch`: create the ref; on a 422 from the host fall
back to a force update of the same ref to the same SHA.  A failure of the
fallback itself propagates the raw client error (the source has no wrapper
on that path). -/
def createOrUpdateBranch (h : Host) (branchName commitSha : String) :
    Except Thrown Unit × List HostCall :=
  match h.createRef ("refs/heads/" ++ branchName) commitSha with
  | .ok _ => (.ok (), [.createRef ("refs/heads/" ++ branchName) commitSha])
  | .error e =>
    if e.status = some 422 then
      match h.updateRef ("heads/" ++ branchName) commitSha true with
      | .ok _ =>
        (.ok (),
         [.createRef ("refs/heads/" ++ branchName) commitSha,
          .updateRef ("heads/" ++ branchName) commitSha true])
      | .error e2 =>
        (.error (.api e2),
         [.createRef ("refs/heads/" ++ branchName) commitSha,
          .updateRef ("heads/" ++ branchName) commitSha true])
    else
      (.error (.gh { message := "Failed to create or update branch",
                     status := e.status, original := some e }),
       [.createRef ("refs/heads/" ++ branchName) commitSha])

/-- Embeds `formatPRDescription`: the section list with `filter(Boolean)` dropping
both the `null` route line and empty strings, joined by blank lines. -/
def formatPRDescription (plan : IntegrationPlan) : String :=
  let sections : List (Option String) :=
    [some plan.pullRequest.description,
     some "## Integration Details",
     (if plan.pullRequest.route != "" then
        some ("- Route: `" ++ plan.pullRequest.route ++ "`")
      else none),
     some ("- Files Modified: " ++ toString plan.pullRequest.files.length),
     some "",
     some "## Changes Overview"] ++
    plan.integrationSteps.map (fun step => some ("### " ++ step))
  String.intercalate "\n\n" ((sections.filterMap id).filter (fun s => s != ""))

/-- Embeds `createPR`: open the pull request; a 422 is reported as a likely
duplicate PR. -/
def createPR (h : Host) (plan : IntegrationPlan) (branchName baseBranch : String) :
    Except Thrown PRInfo × List HostCall :=
  let title := "[ProtoJam] " ++ plan.pullRequest.title
  let body := formatPRDescription plan
  match h.pullsCreate title body branchName baseBranch with
  | .ok pr => (.ok pr, [.pullsCreate title body branchName baseBranch])
  | .error e =>
    (if e.status = some 422 then
       .error (.gh { message := "Failed to create pull request. A PR might already exist for this branch.",
                     status := some 422, original := some e })
     else
       .error (.gh { message := "Failed to create pull request",
                     status := e.status, original := some e }),
     [.pullsCreate title body branchName baseBranch])

def noFilesMsg : String := "Pull request plan must contain at least one file"

/-- The public `createPullRequest` flow of `GitHubService` (lines 247-318):
guard on an empty file list, validate, resolve the base branch, name the
branch, build the tree, commit, create-or-update the branch, open the PR.
The outer catch passes `GitHubError` values through and wraps anything
else.  `now` is the `new Date().toISOString()` character list. -/
def createPullRequest (h : Host) (owner repo : String) (plan : IntegrationPlan)
    (baseBranch : String) (now : List Char) :
    Except GHError PullRequestResult × List HostCall :=
  let run : Except Thrown PullRequestResult × List HostCall :=
    if plan.pullRequest.files.isEmpty then
      (.error (.gh { message := noFilesMsg, status := some 422, original := none }), [])
    else
      match validateRepository h owner repo with
      | (.error e, tr) => (.error e, tr)
      | (.ok _, tr1) =>
        match getBaseBranch h baseBranch with
        | (.error e, tr) => (.error e, tr1 ++ tr)
        | (.ok (baseSha, baseTreeSha), tr2) =>
          let branchName := String.mk (generateBranchName plan.pullRequest.route.toList now)
          match createGitTree h baseTreeSha plan.pullRequest.files with
          | (.error e, tr) => (.error e, tr1 ++ tr2 ++ tr)
          | (.ok treeSha, tr3) =>
            match createCommit h plan.pullRequest.title treeSha baseSha with
            | (.error e, tr) => (.error e, tr1 ++ tr2 ++ tr3 ++ tr)
            | (.ok commitSha, tr4) =>
              match createOrUpdateBranch h branchName commitSha with
              | (.error e, tr) => (.error e, tr1 ++ tr2 ++ tr3 ++ tr4 ++ tr)
              | (.ok _, tr5) =>
                match createPR h plan branchName baseBranch with
                | (.error e, tr) => (.error e, tr1 ++ tr2 ++ tr3 ++ tr4 ++ tr5 ++ tr)
                | (.ok pr, tr6) =>
                  (.ok { url := pr.htmlUrl, number := pr.number, branch := branchName },
                   tr1 ++ tr2 ++ tr3 ++ tr4 ++ tr5 ++ tr6)
  match run with
  | (.ok r, tr) => (.ok r, tr)
  | (.error (.gh e), tr) => (.error e, tr)
  | (.error (.api e), tr) =>
    (.error { message := "An unexpected error occurred while creating the pull request",
              status := none, original := some e }, tr)

/-! ## Concrete fixtures used by counterexamples and witnesses -/

/-- A host on which every operation succeeds. -/
def hostOk : Host :=
  { reposGet := .ok ()
    getRef := fun _ => .ok "base-sha"
    getCommit := fun _ => .ok "base-tree"
    createTree := fun _ _ => .ok "new-tree"
    createCommit := fun _ _ _ => .ok "new-commit"
    createRef := fun _ _ => .ok ()
    updateRef := fun _ _ _ => .ok ()
    pullsCreate := fun _ _ _ _ => .ok { htmlUrl := "http://example/pr/1", number := 1 } }

/-- A host whose create-ref reports 422 (ref already exists) but accepts the
force update. -/
def host422 : Host :=
  { hostOk with
    createRef := fun _ _ => .error { status := some 422, message := "Reference already exists" } }

/-- A plan whose files list is empty. -/
def planNoFiles : IntegrationPlan :=
  { targetDirectory := "src", integrationSteps := []
    pullRequest := { title := "t", description := "d", files := [], route := "demo" } }

/-- A plan with one file whose path and content are both empty. -/
def planEmptyFile : IntegrationPlan :=
  { targetDirectory := "src", integrationSteps := []
    pullRequest := { title := "t", description := "d",
                     files := [{ path := "", content := "" }], route := "demo" } }

/-- A snapshot whose manifest declares `dayjs` before `date-fns` (both are
listed alternatives for `moment` in the equivalence table). -/
def manifestDayjsFirst : List SnapItem :=
  [{ path := "package.json", ftype := FType.file,
     content := some (Content.json (JsonVal.jobj
       [("dependencies", JsonVal.jobj
          [("dayjs", JsonVal.jstr "1.11.0"),
           ("date-fns", JsonVal.jstr "2.0.0")])])) }]

/-- A snapshot whose manifest declares only `date-fns` (the spec's worked
example). -/
def manifestDateFns : List SnapItem :=
  [{ path := "package.json", ftype := FType.file,
     content := some (Content.json (JsonVal.jobj
       [("dependencies", JsonVal.jobj
          [("date-fns", JsonVal.jstr "2.0.0")])])) }]

/-- A snapshot the JS directory builder crashes on: the second path
descends through `a`, already recorded as a file. -/
def snapCrash : List SnapItem :=
  [{ path := "a", ftype := FType.file, content := none },
   { path := "a/b/c", ftype := FType.file, content := none }]

/-- A snapshot whose manifest declares `react` both as a prod and (with a
different version) as a dev dependency. -/
def snapDevOverride : List SnapItem :=
  [{ path := "package.json", ftype := FType.file,
     content := some (Content.json (JsonVal.jobj
       [("dependencies", JsonVal.jobj [("react", JsonVal.jstr "18.0.0")]),
        ("devDependencies", JsonVal.jobj [("react", JsonVal.jstr "17.0.0")])])) }]

/-! ## Lemmas about the string primitives -/

theorem splitOnChar_ne_nil (sep : Char) (cs : List Char) : splitOnChar sep cs ≠ [] := by
  induction cs with
  | nil => simp [splitOnChar]
  | cons c cs ih =>
    simp only [splitOnChar]
    split
    · simp
    · cases h : splitOnChar sep cs with
      | nil => exact absurd h ih
      | cons l ls => simp

theorem splitOnChar_append_sep (sep : Char) (cs : List Char) :
    splitOnChar sep (cs ++ [sep]) = splitOnChar sep cs ++ [[]] := by
  induction cs with
  | nil => simp [splitOnChar]
  | cons c cs ih =>
    by_cases h : c = sep
    · subst h
      simp [splitOnChar, ih]
    · cases hs : splitOnChar sep cs with
      | nil => exact absurd hs (splitOnChar_ne_nil sep cs)
      | cons l ls =>
        rw [List.cons_append]
        simp only [splitOnChar, if_neg h]
        rw [ih, hs]
        simp

theorem jsStartsWith_single (l : List Char) (d : Char) :
    jsStartsWith l [d] = decide (l.head? = some d) := by
  cases l with
  | nil => simp [jsStartsWith]
  | cons c cs =>
    by_cases h : c = d <;> simp [jsStartsWith, h]

/-! ## Claim C3 -/

/-- Claim C3: for every content string, `countChanges` reports as
`additions` exactly the number of newline-split lines whose first character
is `+`, as `deletions` those whose first character is `-`, and appending a
single trailing newline changes neither count. -/
theorem c3_countChanges_spec (content : List Char) :
    (countChanges content).additions
        = ((splitNl content).filter (fun line => decide (line.head? = some '+'))).length
      ∧ (countChanges content).deletions
        = ((splitNl content).filter (fun line => decide (line.head? = some '-'))).length
      ∧ countChanges (content ++ ['\n']) = countChanges content := by
  refine ⟨?_, ?_, ?_⟩
  · simp only [countChanges]
    congr 1
    exact List.filter_congr (fun l _ => jsStartsWith_single l '+')
  · simp only [countChanges]
    congr 1
    exact List.filter_congr (fun l _ => jsStartsWith_single l '-')
  · simp only [countChanges, splitNl, splitOnChar_append_sep, List.filter_append]
    simp [jsStartsWith]

/-! ## Claims C6, C7, C10: branch-name generation -/

theorem dashColonDot_digit {c : Char} (h : c.isDigit = true) : dashColonDot c = c := by
  unfold dashColonDot
  rw [if_neg]
  rintro (rfl | rfl) <;> exact absurd h (by decide)

theorem digit_ne_Z {c : Char} (h : c.isDigit = true) : ¬ (c = 'Z') := by
  rintro rfl
  exact absurd h (by decide)

theorem dashColonDot_dash : dashColonDot '-' = '-' := by decide

theorem dashColonDot_tee : dashColonDot 'T' = 'T' := by decide

theorem dashColonDot_colon : dashColonDot ':' = '-' := by decide

theorem dashColonDot_dot : dashColonDot '.' = '-' := by decide

theorem dashColonDot_zed : dashColonDot 'Z' = 'Z' := by decide

theorem dash_ne_Z : ¬ (('-' : Char) = 'Z') := by decide

theorem tee_ne_Z : ¬ (('T' : Char) = 'Z') := by decide

theorem removeFirstZ_zed (cs : List Char) : removeFirstZ ('Z' :: cs) = cs := by
  simp [removeFirstZ]

/-- On a well-formed ISO timestamp the transformation replaces the colons
and the dot by dashes and drops the final `Z`. -/
theorem tsTransform_render (p : IsoParts) (hp : p.digitsOk) :
    tsTransform p.render = p.stripped := by
  obtain ⟨h1, h2, h3, h4, h5, h6, h7, h8, h9, h10, h11, h12, h13, h14, h15, h16, h17⟩ := hp
  simp only [tsTransform, IsoParts.render, IsoParts.stripped, List.map_cons, List.map_nil,
    dashColonDot_digit h1, dashColonDot_digit h2, dashColonDot_digit h3,
    dashColonDot_digit h4, dashColonDot_digit h5, dashColonDot_digit h6,
    dashColonDot_digit h7, dashColonDot_digit h8, dashColonDot_digit h9,
    dashColonDot_digit h10, dashColonDot_digit h11, dashColonDot_digit h12,
    dashColonDot_digit h13, dashColonDot_digit h14, dashColonDot_digit h15,
    dashColonDot_digit h16, dashColonDot_digit h17,
    dashColonDot_dash, dashColonDot_tee, dashColonDot_colon, dashColonDot_dot,
    dashColonDot_zed]
  simp only [removeFirstZ, removeFirstZ_zed,
    if_neg (digit_ne_Z h1), if_neg (digit_ne_Z h2), if_neg (digit_ne_Z h3),
    if_neg (digit_ne_Z h4), if_neg (digit_ne_Z h5), if_neg (digit_ne_Z h6),
    if_neg (digit_ne_Z h7), if_neg (digit_ne_Z h8), if_neg (digit_ne_Z h9),
    if_neg (digit_ne_Z h10), if_neg (digit_ne_Z h11), if_neg (digit_ne_Z h12),
    if_neg (digit_ne_Z h13), if_neg (digit_ne_Z h14), if_neg (digit_ne_Z h15),
    if_neg (digit_ne_Z h16), if_neg (digit_ne_Z h17),
    if_neg dash_ne_Z, if_neg tee_ne_Z, if_true]

/-- Two timestamps rendering to the same stripped form were equal. -/
theorem render_eq_of_stripped_eq (p q : IsoParts) (h : p.stripped = q.stripped) :
    p.render = q.render := by
  simp only [IsoParts.stripped, List.cons.injEq, and_true] at h
  obtain ⟨e1, e2, e3, e4, -, e5, e6, -, e7, e8, -, e9, e10, -, e11, e12, -,
    e13, e14, -, e15, e16, e17⟩ := h
  simp only [IsoParts.render, e1, e2, e3, e4, e5, e6, e7, e8, e9, e10, e11, e12,
    e13, e14, e15, e16, e17]

/-- Claim C6: branch names generated at the same instant differ whenever the
slugified routes differ, and, for real (digit-filled) ISO timestamps, a
branch-name collision forces both the slugs and the timestamps to agree —
`generateBranchName` is injective in the pair of slugified route and
timestamp. -/
theorem c6_branchName_injective :
    (∀ (r1 r2 t : List Char),
        generateBranchName r1 t = generateBranchName r2 t ↔
          slugify (routeBase r1) = slugify (routeBase r2))
    ∧ (∀ (p q : IsoParts), p.digitsOk → q.digitsOk → ∀ (r1 r2 : List Char),
        generateBranchName r1 p.render = generateBranchName r2 q.render ↔
          (slugify (routeBase r1) = slugify (routeBase r2) ∧ p.render = q.render)) := by
  constructor
  · intro r1 r2 t
    constructor
    · intro h
      unfold generateBranchName at h
      exact List.append_cancel_right (List.append_cancel_left h)
    · intro h
      unfold generateBranchName
      rw [h]
  · intro p q hp hq r1 r2
    constructor
    · intro h
      unfold generateBranchName at h
      rw [tsTransform_render p hp, tsTransform_render q hq] at h
      have h2 := List.append_cancel_left h
      have hlen : ('-' :: p.stripped).length = ('-' :: q.stripped).length := by
        simp [IsoParts.stripped]
      have h3 := List.append_inj' h2 hlen
      refine ⟨h3.1, ?_⟩
      have h4 : p.stripped = q.stripped := by
        injection h3.2
      exact render_eq_of_stripped_eq p q h4
    · intro h
      unfold generateBranchName
      rw [h.1, h.2]

theorem isoExample_digitsOk : isoExample.digitsOk := by
  unfold IsoParts.digitsOk
  decide

/-- Witness for C6: concrete distinct routes at the same concrete timestamp
produce distinct branch names. -/
theorem c6_witness :
    generateBranchName "pricing".toList isoExample.render
      ≠ generateBranchName "about".toList isoExample.render := by
  intro h
  have h2 := (c6_branchName_injective.2 isoExample isoExample isoExample_digitsOk
    isoExample_digitsOk "pricing".toList "about".toList).mp h
  exact absurd h2.1 (by decide)

/-- Claim C7 counterexample: for the route `My_Page` at a concrete
timestamp the generated name contains an underscore (kept by the slug regex
`[^a-z0-9-_]`, not collapsed to `-`) and the uppercase `T` of the
timestamp, so the published pattern — whole name lowercase, every
non-alphanumeric of the identifier collapsed to `-` — does not hold. -/
theorem c7_counterexample :
    ((generateBranchName "My_Page".toList isoExample.render).all
        (fun c => c.isLower || c.isDigit || c == '-')) = false
      ∧ '_' ∈ generateBranchName "My_Page".toList isoExample.render
      ∧ 'T' ∈ generateBranchName "My_Page".toList isoExample.render := by
  refine ⟨by decide, by decide, by decide⟩

/-- Claim C7 (amended): every branch name is the fixed prefix, the
slugified identifier, a dash, and the transformed timestamp; each slug
character is a lowercase letter, a digit, a dash, or an underscore
(underscores are preserved, and the timestamp retains its uppercase `T`,
so the whole name need not be lowercase). -/
theorem c7_branchName_pattern (r t : List Char) :
    generateBranchName r t
        = "protojam-".toList ++ (slugify (routeBase r) ++ ('-' :: tsTransform t))
      ∧ (slugify (routeBase r)).all isSlugChar = true := by
  refine ⟨rfl, ?_⟩
  rw [List.all_eq_true]
  intro c hc
  simp only [slugify, List.mem_map] at hc
  obtain ⟨a, -, rfl⟩ := hc
  simp only [slugChar]
  split
  · assumption
  · decide

/-- Claim C10: an empty (falsy) route falls back to the literal slug
`prototype`, so the branch name is `protojam-prototype-` followed by the
transformed timestamp — branch naming never fails for lack of a route. -/
theorem c10_emptyRoute (t : List Char) :
    generateBranchName [] t = "protojam-prototype-".toList ++ tsTransform t := by
  have h : slugify (routeBase []) = "prototype".toList := by decide
  simp only [generateBranchName, h]
  rw [← List.singleton_append, ← List.append_assoc, ← List.append_assoc]
  congr 1

/-! ## Claim C4: dependency-substitution findings -/

theorem head?_filter_eq_find? {α : Type} (p : α → Bool) (l : List α) :
    (l.filter p).head? = l.find? p := by
  induction l with
  | nil => rfl
  | cons a l ih =>
    by_cases h : p a = true
    · simp [List.filter_cons, List.find?_cons, h]
    · simp [List.filter_cons, List.find?_cons, h, ih]

/-- Claim C4 counterexample: with a manifest declaring `dayjs` before
`date-fns` (both listed alternatives for `moment`), the finding for an
imported `moment` reports `dayjs` — the first *manifest* key that appears
in the table row — while the claim's rule (first *table* entry present in
the manifest) picks `date-fns`. -/
theorem c4_counterexample :
    dependencyAnalysis [("proto.tsx", "import moment from \"moment\"")] manifestDayjsFirst
        = [{ pkg := "moment", existingAlternative := some "dayjs" }]
      ∧ specExistingAlternative (planExistingDependencies manifestDayjsFirst) "moment"
        = some "date-fns"
      ∧ (("dayjs" : String) == "date-fns") = false := by
  refine ⟨by decide, by decide, by decide⟩

/-- Claim C4 (amended): `existingAlternative` is the first dependency key
declared in the target manifest (declaration order) that appears in the
equivalence table's row for the specifier's base package, null when none;
the spec's worked example (manifest declaring only `date-fns`, prototype
importing `moment`) does hold. -/
theorem c4_amended :
    (∀ (existingDependencies : List (String × JsonVal)) (dep : String),
        (findingFor existingDependencies dep).existingAlternative
          = (existingDependencies.map Prod.fst).find?
              (fun k => (altListFor (basePkgOf dep)).contains k))
    ∧ dependencyAnalysis [("proto.tsx", "import moment from \"moment\"")] manifestDateFns
        = [{ pkg := "moment", existingAlternative := some "date-fns" }] := by
  constructor
  · intro ed dep
    simp only [findingFor]
    exact head?_filter_eq_find? _ _
  · decide

/-! ## Claim C5: response transform -/

/-- Claim C5 counterexample: a response file with no `content` and an empty
`changes` list survives the transform with `content` equal to the empty
string — the resulting plan does contain a file entry with empty content. -/
theorem c5_counterexample :
    transformFiles [{ path := "demo.tsx", content := none, changes := some [],
                      originalPath := none }]
        = some [{ path := "demo.tsx", content := "", additions := 0, deletions := 0,
                  changes := some [], originalPath := none }]
      ∧ ((transformFiles [{ path := "demo.tsx", content := none, changes := some [],
                            originalPath := none }]).getD []).all
          (fun g => g.content != "") = false := by
  refine ⟨by decide, by decide⟩

/-- Claim C5 (amended): a response file whose `content` is absent — or
present but the empty string, which is equally falsy in JS — while its
`changes` is present receives the `changes` entries joined with newlines as
its content (a string that is always defined but may be empty, e.g. for an
empty `changes` list). -/
theorem c5_amended (f : RespFile) (cs : List String)
    (hch : f.changes = some cs) (hc : f.content = none ∨ f.content = some "") :
    transformFile f
      = some { path := f.path, content := joinNl cs, additions := 0, deletions := 0,
               changes := f.changes, originalPath := f.originalPath } := by
  rcases hc with hc | hc <;> simp [transformFile, hc, hch]

/-- Witness for C5 at a concrete response file with empty-string content. -/
theorem c5_witness :
    transformFile { path := "notes.md", content := some "",
                    changes := some ["add x", "add y"], originalPath := none }
      = some { path := "notes.md", content := joinNl ["add x", "add y"],
               additions := 0, deletions := 0, changes := some ["add x", "add y"],
               originalPath := none } :=
  c5_amended _ ["add x", "add y"] rfl (Or.inr rfl)

/-! ## Claim C8: manifest dependency union -/

theorem lookupAssoc_map_override {α : Type} (a b : List (String × α)) (k : String) :
    lookupAssoc (a.map (fun e => (e.1, (lookupAssoc b e.1).getD e.2))) k
      = (lookupAssoc a k).map (fun v => (lookupAssoc b k).getD v) := by
  induction a with
  | nil => rfl
  | cons e a ih =>
    obtain ⟨k', v'⟩ := e
    by_cases h : k' = k
    · subst h
      simp [lookupAssoc]
    · simp [lookupAssoc, h, ih]

theorem lookupAssoc_filter_notKey {α : Type} (a b : List (String × α)) (k : String) :
    lookupAssoc (b.filter (fun e => !hasKey a e.1)) k
      = if hasKey a k then none else lookupAssoc b k := by
  induction b with
  | nil => simp [lookupAssoc]
  | cons e b ih =>
    obtain ⟨k'', v''⟩ := e
    by_cases hk : k'' = k
    · subst hk
      by_cases ha : hasKey a k''
      · simp [List.filter_cons, ha, lookupAssoc, ih]
      · simp [List.filter_cons, ha, lookupAssoc]
    · by_cases ha : hasKey a k''
      · simp [List.filter_cons, ha, lookupAssoc, hk, ih]
      · simp [List.filter_cons, ha, lookupAssoc, hk, ih]

theorem hasKey_eq_isSome {α : Type} (a : List (String × α)) (k : String) :
    hasKey a k = (lookupAssoc a k).isSome := by
  induction a with
  | nil => rfl
  | cons e a ih =>
    obtain ⟨k', v'⟩ := e
    by_cases h : k' = k
    · subst h
      simp [hasKey, lookupAssoc]
    · have hb : (k' == k) = false := beq_eq_false_iff_ne.mpr h
      simp only [hasKey, List.any_cons, hb, Bool.false_or, lookupAssoc, if_neg h]
      exact ih

theorem lookupAssoc_append {α : Type} (a b : List (String × α)) (k : String) :
    lookupAssoc (a ++ b) k
      = match lookupAssoc a k with
        | some v => some v
        | none => lookupAssoc b k := by
  induction a with
  | nil => rfl
  | cons e a ih =>
    obtain ⟨k', v'⟩ := e
    by_cases h : k' = k
    · subst h
      simp [lookupAssoc]
    · simp [lookupAssoc, h, ih]

/-- Claim C8 counterexample: with `react` declared in both maps, the merged
`allDeps` answers with the devDependencies version `17.0.0`, not the prod
`18.0.0` — the later spread (`devDependencies`) wins. -/
theorem c8_counterexample :
    lookupAssoc (computeAllDeps snapDevOverride) "react" = some (JsonVal.jstr "17.0.0")
      ∧ lookupAssoc (snapshotPackageDeps snapDevOverride).1 "react"
          = some (JsonVal.jstr "18.0.0")
      ∧ (("17.0.0" : String) == "18.0.0") = false := by
  refine ⟨rfl, rfl, by decide⟩

/-- Claim C8 (amended): in the spread union of `dependencies` then
`devDependencies`, a key present in `devDependencies` resolves to its dev
value (dev entries do override prod entries of the same key); keys absent
from `devDependencies` keep their prod value. -/
theorem c8_amended (a b : List (String × JsonVal)) (k : String) :
    (∀ v, lookupAssoc b k = some v → lookupAssoc (spreadMerge a b) k = some v)
    ∧ (lookupAssoc b k = none → lookupAssoc (spreadMerge a b) k = lookupAssoc a k) := by
  have hmain : lookupAssoc (spreadMerge a b) k
      = match lookupAssoc a k with
        | some v => some ((lookupAssoc b k).getD v)
        | none => lookupAssoc b k := by
    rw [spreadMerge, lookupAssoc_append, lookupAssoc_map_override,
      lookupAssoc_filter_notKey, hasKey_eq_isSome]
    cases ha : lookupAssoc a k <;> simp
  constructor
  · intro v hv
    rw [hmain, hv]
    cases ha : lookupAssoc a k <;> simp
  · intro hv
    rw [hmain, hv]
    cases ha : lookupAssoc a k <;> simp

/-- Witness for C8: the dev entry wins at a concrete shared key. -/
theorem c8_witness :
    lookupAssoc (spreadMerge [("react", JsonVal.jstr "18.0.0")]
        [("react", JsonVal.jstr "17.0.0")]) "react"
      = some (JsonVal.jstr "17.0.0") :=
  (c8_amended [("react", JsonVal.jstr "18.0.0")] [("react", JsonVal.jstr "17.0.0")]
    "react").1 (JsonVal.jstr "17.0.0") rfl

/-! ## Claim C9: Context Analyzer totality -/

/-- Claim C9 counterexample: a type-valid snapshot containing a file `a`
followed by a file `a/b/c` makes `buildDirectoryStructure` descend through
the file node `a` — the JS code throws a `TypeError` there, so the Context
Analyzer does raise on this input. -/
theorem c9_counterexample : analyzeProjectStructure snapCrash = none := rfl

/-- Claim C9 (amended): the Context Analyzer returns a result exactly when
directory-structure building does not hit the file-node descent; absence of
information still degrades without error — the empty snapshot and a
malformed manifest both produce results, and a malformed manifest parses to
empty dependency maps. -/
theorem c9_amended :
    (∀ (snap : List SnapItem) (ds : DStruct),
        buildDirectoryStructure snap = some ds →
          analyzeProjectStructure snap = some (analysisBody snap ds))
    ∧ analyzeProjectStructure ([] : List SnapItem)
        = some (analysisBody [] (DStruct.mk []))
    ∧ (analyzeProjectStructure
          [{ path := "package.json", ftype := FType.file,
             content := some (Content.malformed "not json") }]).isSome = true
    ∧ snapshotPackageDeps
          [{ path := "package.json", ftype := FType.file,
             content := some (Content.malformed "not json") }] = ([], []) := by
  refine ⟨?_, rfl, rfl, rfl⟩
  intro snap ds h
  simp [analyzeProjectStructure, h]

/-- Witness for C9 at the empty snapshot. -/
theorem c9_witness :
    analyzeProjectStructure ([] : List SnapItem)
      = some (analysisBody [] (DStruct.mk [])) :=
  c9_amended.1 [] (DStruct.mk []) rfl

/-! ## Claim C1: empty change set in the Publisher -/

/-- Claim C1 counterexample: a plan whose (empty) files list vacuously has
only empty files fails up front with the at-least-one-file error — before
repository validation, with no host call at all — not with the
empty-change-set error raised during tree building. -/
theorem c1_counterexample :
    (planNoFiles.pullRequest.files.all (fun f => f.path == "" || f.content == "")) = true
      ∧ createPullRequest hostOk "o" "r" planNoFiles "main" []
        = (.error { message := noFilesMsg, status := some 422, original := none }, [])
      ∧ (noFilesMsg == emptyChangeSetMsg) = false := by
  refine ⟨rfl, rfl, by decide⟩

/-- Claim C1 (amended): when the files list is non-empty but every file has
an empty path or empty content, and the read-only repository validation
and base-branch resolution succeed, `createPullRequest` fails with the
empty-change-set error raised during tree building, and the host trace is
exactly the three read-only calls — no mutation call is ever issued. -/
theorem c1_amended (h : Host) (owner repo baseBranch : String)
    (plan : IntegrationPlan) (now : List Char) (sha treeSha : String)
    (hne : plan.pullRequest.files ≠ [])
    (hempty : ∀ f ∈ plan.pullRequest.files, f.path = "" ∨ f.content = "")
    (hrepo : h.reposGet = .ok ())
    (href : h.getRef ("heads/" ++ baseBranch) = .ok sha)
    (hcommit : h.getCommit sha = .ok treeSha) :
    createPullRequest h owner repo plan baseBranch now
        = (.error { message := emptyChangeSetMsg, status := some 422, original := none },
           [HostCall.reposGet, HostCall.getRef ("heads/" ++ baseBranch),
            HostCall.getCommit sha])
      ∧ ([HostCall.reposGet, HostCall.getRef ("heads/" ++ baseBranch),
          HostCall.getCommit sha].all (fun c => !c.isMutation)) = true := by
  have hfe : plan.pullRequest.files.isEmpty = false := by
    cases hf : plan.pullRequest.files with
    | nil => exact absurd hf hne
    | cons a l => rfl
  have hentries : treeEntriesOf plan.pullRequest.files = [] := by
    unfold treeEntriesOf
    rw [List.filter_eq_nil_iff.mpr, List.map_nil]
    intro f hf
    rcases hempty f hf with h1 | h1 <;> simp [h1]
  constructor
  · simp [createPullRequest, validateRepository, getBaseBranch, createGitTree,
      hfe, hrepo, href, hcommit, hentries]
  · rfl

/-- Witness for C1 at a concrete all-success host and a plan with one
path-and-content-empty file. -/
theorem c1_witness :
    createPullRequest hostOk "o" "r" planEmptyFile "main" []
      = (.error { message := emptyChangeSetMsg, status := some 422, original := none },
         [HostCall.reposGet, HostCall.getRef ("heads/" ++ "main"),
          HostCall.getCommit "base-sha"]) :=
  (c1_amended hostOk "o" "r" "main" planEmptyFile [] "base-sha" "base-tree"
    (by decide) (by decide) rfl rfl rfl).1

/-! ## Claim C2: branch-ref creation fallback -/

/-- Claim C2: when the host's create-ref call fails with status 422 (the
status GitHub uses for an already-existing ref), `createOrUpdateBranch`
falls back to force-updating the existing ref to the same commit SHA
(succeeding when the host accepts the update); every other create-ref
failure raises the wrapped branch error without any update attempt. -/
theorem c2_createOrUpdateBranch_fallback (h : Host) (branchName commitSha : String)
    (e : ApiErr)
    (herr : h.createRef ("refs/heads/" ++ branchName) commitSha = .error e) :
    (e.status = some 422 →
        h.updateRef ("heads/" ++ branchName) commitSha true = .ok () →
          createOrUpdateBranch h branchName commitSha
            = (.ok (), [HostCall.createRef ("refs/heads/" ++ branchName) commitSha,
                        HostCall.updateRef ("heads/" ++ branchName) commitSha true]))
    ∧ (e.status = some 422 →
        (createOrUpdateBranch h branchName commitSha).2
          = [HostCall.createRef ("refs/heads/" ++ branchName) commitSha,
             HostCall.updateRef ("heads/" ++ branchName) commitSha true])
    ∧ (e.status ≠ some 422 →
        createOrUpdateBranch h branchName commitSha
          = (.error (.gh { message := "Failed to create or update branch",
                           status := e.status, original := some e }),
             [HostCall.createRef ("refs/heads/" ++ branchName) commitSha])) := by
  refine ⟨?_, ?_, ?_⟩
  · intro h422 hupd
    simp [createOrUpdateBranch, herr, h422, hupd]
  · intro h422
    simp only [createOrUpdateBranch, herr, h422, if_pos]
    cases hu : h.updateRef ("heads/" ++ branchName) commitSha true <;> simp [hu]
  · intro hne
    simp [createOrUpdateBranch, herr, hne]

/-- Witness for C2 at a host reporting 422 on create-ref and accepting the
force update. -/
theorem c2_witness :
    createOrUpdateBranch host422 "protojam-x" "sha1"
      = (.ok (), [HostCall.createRef ("refs/heads/" ++ "protojam-x") "sha1",
                  HostCall.updateRef ("heads/" ++ "protojam-x") "sha1" true]) :=
  (c2_createOrUpdateBranch_fallback host422 "protojam-x" "sha1"
      { status := some 422, message := "Reference already exists" } rfl).1 rfl rfl

end Protojam
